import Mathlib

/-
Verification development for the remotion_render subsystem
(FlowchartAnimation.tsx, CodeSlide.tsx, Root composition).

Conventions of the embedding:
* JavaScript numbers are modelled as exact rationals (ℚ); `Math.round`
  is Lean's `round` (both round halves toward +∞), `Math.max`/`Math.min`
  are `max`/`min`, and `Math.floor` is `Int.floor`.
* JavaScript strings are modelled as `List Char` where character-level
  operations (slice, split, per-character tests) matter, and as `String`
  where only identity matters (node ids, language names).
* The Dagre layout library is external to the repository; it is modelled
  as an oracle (`DagreOracle`) supplying node positions and edge routes,
  exactly the two queries the source makes of the laid-out graph.
  The source's `pos?.x ?? 0` option-chaining and the try/catch around
  `g.edge` are modelled by `Option` defaults: every failure mode of the
  edge-route lookup results in the empty route, which the source then
  replaces by the straight-line fallback.
* All definitions are total Lean functions: the source raises no
  exception on any of the modelled paths.
-/

namespace Flowchart

/-- Node shapes, from `NodeShape` in FlowchartAnimation.tsx. -/
inductive NodeShape
  | box
  | diamond
  | circle
  | rounded
deriving DecidableEq

/-- Input node, from `NodeData` in FlowchartAnimation.tsx. -/
structure NodeData where
  id : String
  label : String
  shape : NodeShape
deriving DecidableEq

/-- Input edge, from `EdgeData` in FlowchartAnimation.tsx.  The source
fields `from`/`to` are renamed `fromId`/`toId` (`from` is a Lean keyword). -/
structure EdgeData where
  fromId : String
  toId : String
  label : Option String := none
deriving DecidableEq

/-- A 2D point of an edge polyline. -/
structure Point where
  x : ℚ
  y : ℚ
deriving DecidableEq

/-- Laid-out node, from `LayoutNode` in FlowchartAnimation.tsx. -/
structure LayoutNode where
  id : String
  label : String
  shape : NodeShape
  x : ℚ
  y : ℚ
  w : ℚ
  h : ℚ
deriving DecidableEq

/-- Laid-out edge, from `LayoutEdge` in FlowchartAnimation.tsx. -/
structure LayoutEdge where
  fromId : String
  toId : String
  label : Option String := none
  points : List Point
deriving DecidableEq

/-- Layout constant `NODE_W`. -/
def NODE_W : ℚ := 190

/-- Layout constant `NODE_H`. -/
def NODE_H : ℚ := 60

/-- Layout constant `DIAMOND_W`. -/
def DIAMOND_W : ℚ := 160

/-- Layout constant `DIAMOND_H`. -/
def DIAMOND_H : ℚ := 100

/-- What the Dagre graph reports for a laid-out node (`g.node(id)`). -/
structure DagreNodeInfo where
  x : ℚ
  y : ℚ
  width : ℚ
  height : ℚ
deriving DecidableEq

/-- Oracle for the external Dagre layout library.  `nodePos id` models
`g.node(id)` after `Dagre.layout(g)` (`none` models `undefined`);
`edgePoints a b` models the points list obtained from `g.edge(a, b)` with
the source's `?? []` defaulting and exception swallowing already applied,
so a missing route or a thrown lookup is the empty list. -/
structure DagreOracle where
  nodePos : String → Option DagreNodeInfo
  edgePoints : String → String → List Point

/-- Embedding of `computeLayout` (FlowchartAnimation.tsx, lines 67-120):
nodes are mapped to laid-out nodes with position/size from the oracle and
`(0, 0, NODE_W, NODE_H)` as fallback; edges are filtered to those whose
`from` and `to` both occur among the node ids, and each kept edge gets the
oracle's route, replaced by the straight segment between the endpoints'
centers when the route has fewer than 2 points. -/
def computeLayout (g : DagreOracle) (nodes : List NodeData) (edges : List EdgeData) :
    List LayoutNode × List LayoutEdge :=
  let validEdgeIds := nodes.map (fun n => n.id)
  let laidOutNodes : List LayoutNode := nodes.map (fun n =>
    match g.nodePos n.id with
    | some pos =>
        { id := n.id, label := n.label, shape := n.shape,
          x := pos.x, y := pos.y, w := pos.width, h := pos.height }
    | none =>
        { id := n.id, label := n.label, shape := n.shape,
          x := 0, y := 0, w := NODE_W, h := NODE_H })
  let laidOutEdges : List LayoutEdge :=
    (edges.filter (fun e => validEdgeIds.contains e.fromId && validEdgeIds.contains e.toId)).map
      (fun e =>
        let pts := g.edgePoints e.fromId e.toId
        let pts := if pts.length < 2 then
            [{ x := ((g.nodePos e.fromId).map (fun p => p.x)).getD 0,
               y := ((g.nodePos e.fromId).map (fun p => p.y)).getD 0 },
             { x := ((g.nodePos e.toId).map (fun p => p.x)).getD 0,
               y := ((g.nodePos e.toId).map (fun p => p.y)).getD 0 }]
          else pts
        { fromId := e.fromId, toId := e.toId, label := e.label, points := pts })
  (laidOutNodes, laidOutEdges)

/-- Forgets the layout data of a laid-out node, recovering the input node. -/
def toNodeData (n : LayoutNode) : NodeData :=
  { id := n.id, label := n.label, shape := n.shape }

/-- Forgets the route of a laid-out edge, recovering the input edge. -/
def toEdgeData (e : LayoutEdge) : EdgeData :=
  { fromId := e.fromId, toId := e.toId, label := e.label }

/-- Validity test of an edge, from line 82 of the source:
both endpoints occur among the node ids. -/
def validEdge (nodes : List NodeData) (e : EdgeData) : Bool :=
  (nodes.map (fun n => n.id)).contains e.fromId &&
    (nodes.map (fun n => n.id)).contains e.toId

/-- Bounding box of the laid-out graph (`viewBox` in the source). -/
structure ViewBox where
  minX : ℚ
  maxX : ℚ
  minY : ℚ
  maxY : ℚ
deriving DecidableEq

/-- Minimum of a list of rationals; the source only applies `Math.min`
to spread nonempty lists, so the empty default is irrelevant. -/
def minOf : List ℚ → ℚ
  | [] => 0
  | x :: xs => xs.foldl min x

/-- Maximum of a list of rationals (see `minOf`). -/
def maxOf : List ℚ → ℚ
  | [] => 0
  | x :: xs => xs.foldl max x

/-- Padding margin `PAD` of the fit computation. -/
def PAD : ℚ := 60

/-- Embedding of the view-box computation (source lines 321-331): the
default `(0, NODE_W, 0, NODE_H)` box when there are no laid-out nodes,
otherwise the min/max of every node box corner coordinate. -/
def viewBoxOf (lnodes : List LayoutNode) : ViewBox :=
  if 0 < lnodes.length then
    let xs := lnodes.flatMap (fun n => [n.x - n.w / 2, n.x + n.w / 2])
    let ys := lnodes.flatMap (fun n => [n.y - n.h / 2, n.y + n.h / 2])
    { minX := minOf xs, maxX := maxOf xs, minY := minOf ys, maxY := maxOf ys }
  else
    { minX := 0, maxX := NODE_W, minY := 0, maxY := NODE_H }

/-- Padded graph width `graphW` (source line 333). -/
def graphWOf (lnodes : List LayoutNode) : ℚ :=
  (viewBoxOf lnodes).maxX - (viewBoxOf lnodes).minX + PAD * 2

/-- Padded graph height `graphH` (source line 334). -/
def graphHOf (lnodes : List LayoutNode) : ℚ :=
  (viewBoxOf lnodes).maxY - (viewBoxOf lnodes).minY + PAD * 2

/-- Title band height `TITLE_H` (source line 318); JavaScript truthiness
makes the empty string behave like an absent title. -/
def titleHOf (title : Option String) : ℚ :=
  match title with
  | some t => if t = "" then 0 else 90
  | none => 0

/-- Embedding of the fit scale (source line 338):
`Math.min(availW * 0.88 / graphW, availH * 0.9 / graphH, 1.6)`. -/
def fitScale (lnodes : List LayoutNode) (width height : ℚ) (title : Option String) : ℚ :=
  let availW := width
  let availH := height - titleHOf title
  min (min (availW * 0.88 / graphWOf lnodes) (availH * 0.9 / graphHOf lnodes)) 1.6

/-- Comparison used to order nodes for the reveal (source line 348):
the JavaScript comparator `a.y - b.y || a.x - b.x` sorts by `y` then `x`,
stably (Array.prototype.sort is stable). -/
def layoutNodeLE (a b : LayoutNode) : Bool :=
  decide (a.y < b.y) || (decide (a.y = b.y) && decide (a.x ≤ b.x))

/-- Stable insertion of `a` into a sorted list: `a` is placed before the
first element it compares less-or-equal to, so an element inserted later
never jumps ahead of an equal element inserted earlier. -/
def sortedInsert {α : Type} (le : α → α → Bool) (a : α) : List α → List α
  | [] => [a]
  | b :: l => if le a b then a :: b :: l else b :: sortedInsert le a l

/-- Stable insertion sort, the model of JavaScript's stable
`Array.prototype.sort`: elements are inserted back-to-front, so equal
elements keep their original relative order. -/
def stableSortBy {α : Type} (le : α → α → Bool) : List α → List α
  | [] => []
  | a :: l => sortedInsert le a (stableSortBy le l)

/-- Reveal order of the node ids (source lines 347-349). -/
def orderedIds (lnodes : List LayoutNode) : List String :=
  ((stableSortBy layoutNodeLE lnodes).map (fun n => n.id))

/-- Per-node reveal interval (source lines 351-354):
`Math.max(fps * 0.18, durationInFrames * 0.55 / Math.max(n, 1))`. -/
def nodeInterval (fps totalFrames n : ℕ) : ℚ :=
  max ((fps : ℚ) * 0.18) ((totalFrames : ℚ) * 0.55 / ((max n 1 : ℕ) : ℚ))

/-- Node start frames (source lines 356-359), as the association list of
successive assignments `nodeStartFrames[id] = Math.round(i * interval + 6)`. -/
def nodeStartFrames (fps totalFrames : ℕ) (lnodes : List LayoutNode) : List (String × ℤ) :=
  (orderedIds lnodes).enum.map
    (fun p => (p.2,
      round ((p.1 : ℚ) * nodeInterval fps totalFrames (orderedIds lnodes).length + 6)))

/-- Lookup in a record built by successive assignments: the last
assignment to a key wins, and a missing key yields the default
(the source's `nodeStartFrames[id] ?? 0`). -/
def recordGetD (m : List (String × ℤ)) (k : String) (d : ℤ) : ℤ :=
  ((m.reverse).lookup k).getD d

/-- Edge draw-in duration `EDGE_ANIM_FRAMES = Math.round(fps * 0.42)`
(source line 361). -/
def edgeAnimFrames (fps : ℕ) : ℤ :=
  round ((fps : ℚ) * 0.42)

/-- Edge start frames (source lines 362-366): each laid-out edge starts at
`Math.round(Math.max(start(from), start(to)) + fps * 0.18)`. -/
def edgeStartFrames (fps totalFrames : ℕ) (lnodes : List LayoutNode)
    (ledges : List LayoutEdge) : List ℤ :=
  ledges.map (fun e =>
    round (((max (recordGetD (nodeStartFrames fps totalFrames lnodes) e.fromId 0)
        (recordGetD (nodeStartFrames fps totalFrames lnodes) e.toId 0) : ℤ) : ℚ) +
      (fps : ℚ) * 0.18))

/-- Embedding of `calculateMetadata` (Root composition):
`durationInFrames = Math.max(90, Math.round((durationSeconds ?? 5) * 30))`. -/
def calculateMetadata (durationSeconds : Option ℚ) : ℤ :=
  max 90 (round ((durationSeconds.getD 5) * 30))

/-- Embedding of `label.split(/\s+/)` (source line 145): chunks between
maximal whitespace runs, with an empty leading chunk when the string
starts with whitespace and an empty trailing chunk when it ends with one
(JavaScript split semantics).  A whitespace character followed by more
whitespace belongs to the run already accounted for by the tail, so the
tail's chunks are returned unchanged; otherwise it opens a new run,
contributing the empty chunk that precedes it. -/
def splitWS : List Char → List (List Char)
  | [] => [[]]
  | c :: rest =>
      if c.isWhitespace then
        if rest.head?.any Char.isWhitespace then splitWS rest
        else [] :: splitWS rest
      else
        match splitWS rest with
        | [] => [[c]]
        | chunk :: more => (c :: chunk) :: more

/-- Embedding of JavaScript `w.slice(0, maxChars - 1)` on a string of
characters: a nonnegative end index takes that many characters, while the
end index `-1` arising from `maxChars = 0` counts from the end of the
string and takes all but the last character. -/
def jsSliceTake (w : List Char) (maxChars : ℕ) : List Char :=
  if maxChars = 0 then w.take (w.length - 1) else w.take (maxChars - 1)

/-- Ellipsis character appended by the truncations. -/
def ellipsisChar : Char := Char.ofNat 8230

/-- Truncation of a single over-long word (source line 152):
`w.length > maxChars ? w.slice(0, maxChars - 1) + ellipsis : w`. -/
def truncWord (w : List Char) (maxChars : ℕ) : List Char :=
  if maxChars < w.length then jsSliceTake w maxChars ++ [ellipsisChar] else w

/-- The word-accumulation loop of `wrapLabel` (source lines 146-157),
with the current line `cur` and the accumulated `lines` made explicit.
JavaScript truthiness of `cur` is emptiness of the character list. -/
def wrapLoop (maxChars : ℕ) : List (List Char) → List Char → List (List Char) → List (List Char)
  | [], cur, lines => if cur.isEmpty then lines else lines ++ [cur]
  | w :: ws, cur, lines =>
      let candidate := if cur.isEmpty then w else cur ++ [' '] ++ w
      if maxChars < candidate.length then
        wrapLoop maxChars ws (truncWord w maxChars)
          (if cur.isEmpty then lines else lines ++ [cur])
      else
        wrapLoop maxChars ws candidate lines

/-- Lines computed by `wrapLabel` before the final `slice(0, 2)`
(source lines 143-157). -/
def wrapLines (label : List Char) (maxChars : ℕ) : List (List Char) :=
  if label.length ≤ maxChars then [label]
  else wrapLoop maxChars (splitWS label) [] []

/-- Embedding of `wrapLabel` (source lines 143-159): the accumulated
lines cut down to at most 2 by `lines.slice(0, 2)`. -/
def wrapLabel (label : List Char) (maxChars : ℕ) : List (List Char) :=
  (wrapLines label maxChars).take 2

/-- Embedding of the inline edge-label display text (source line 297):
`edge.label.length > 10 ? edge.label.slice(0, 9) + ellipsis : edge.label`. -/
def displayEdgeLabel (label : List Char) : List Char :=
  if 10 < label.length then label.take 9 ++ [ellipsisChar] else label

end Flowchart

namespace CodeSlide

/-- Characters of the separator class in the split regex of `tokenize`
(CodeSlide.tsx line 32), written by code point: the parentheses, braces,
brackets, comma, period, colon, semicolon, equals, angle brackets,
exclamation mark, plus, minus, asterisk, slash, percent, pipe, ampersand,
caret, tilde, double quote, single quote and backtick. -/
def specialChars : List Char :=
  [40, 41, 123, 125, 91, 93, 44, 46, 58, 59, 61, 60, 62, 33,
    43, 45, 42, 47, 37, 124, 38, 94, 126, 34, 39, 96].map Char.ofNat

/-- Membership in the separator character class. -/
def isSpecial (c : Char) : Bool := specialChars.contains c

/-- Embedding of `line.split(/(\s+|[...])/)` with a capturing group
(CodeSlide.tsx line 32): the result alternates the chunks between
separator matches and the separators themselves (a maximal whitespace run
counts as one separator, each special character as its own), including
the empty chunks JavaScript produces between adjacent separators and at
the ends.  A whitespace character followed by more whitespace extends the
separator run the tail already produced (whose chunks then start with the
empty chunk preceding that run); the remaining match arm is unreachable
and treats the character as its own run. -/
def splitParts : List Char → List (List Char)
  | [] => [[]]
  | c :: rest =>
      if c.isWhitespace then
        if rest.head?.any Char.isWhitespace then
          match splitParts rest with
          | [] :: run :: more => [] :: (c :: run) :: more
          | other => [] :: [c] :: other
        else [] :: [c] :: splitParts rest
      else if isSpecial c then
        [] :: [c] :: splitParts rest
      else
        match splitParts rest with
        | [] => [[c]]
        | chunk :: more => (c :: chunk) :: more

/-- Classification a token receives from `tokenize`: exactly one of the
five span styles of CodeSlide.tsx lines 35-48. -/
inductive TokenClass
  | keyword
  | stringLit
  | numericLit
  | comment
  | plain
deriving DecidableEq

/-- The language-keyed keyword table of `tokenize`
(CodeSlide.tsx lines 20-28). -/
def keywordTable : List (String × List String) :=
  [("python",
    ["def", "class", "import", "from", "return", "if", "else", "elif", "for",
     "while", "in", "not", "and", "or", "True", "False", "None", "with", "as",
     "try", "except", "raise", "lambda", "yield", "async", "await"]),
   ("javascript",
    ["function", "const", "let", "var", "return", "if", "else", "for", "while",
     "class", "import", "export", "from", "default", "async", "await", "new",
     "this", "true", "false", "null", "undefined"]),
   ("go",
    ["func", "package", "import", "var", "const", "type", "struct", "interface",
     "return", "if", "else", "for", "range", "go", "chan", "select", "case",
     "defer", "map", "make", "nil", "true", "false"]),
   ("sql",
    ["SELECT", "FROM", "WHERE", "JOIN", "LEFT", "RIGHT", "INNER", "ON", "GROUP",
     "BY", "ORDER", "HAVING", "INSERT", "INTO", "VALUES", "UPDATE", "SET",
     "DELETE", "CREATE", "TABLE", "INDEX", "AND", "OR", "NOT", "NULL", "AS",
     "LIMIT", "OFFSET"]),
   ("bash",
    ["if", "then", "else", "fi", "for", "do", "done", "while", "echo", "export",
     "cd", "ls", "grep", "awk", "sed", "cat", "rm", "mkdir", "chmod"]),
   ("yaml", []),
   ("text", [])]

/-- Lowercasing of a token (`toLowerCase`); the table and the token
characters the comparison can match are ASCII, where `Char.toLower`
agrees with JavaScript. -/
def lowerStr (s : List Char) : List Char := s.map Char.toLower

/-- Keyword set for a language (`new Set((keywords[language] || []).map(
k.toLowerCase()))`): the table entry, lowercased, or empty for a language
that is not a table key. -/
def kwsFor (language : String) : List (List Char) :=
  ((keywordTable.lookup language).getD []).map (fun k => lowerStr k.toList)

/-- Quote characters of the string-literal tests, by code point:
double quote, single quote, backtick. -/
def quoteChars : List Char := [34, 39, 96].map Char.ofNat

/-- Membership in the quote character class. -/
def isQuote (c : Char) : Bool := quoteChars.contains c

/-- First string-literal test (CodeSlide.tsx line 39), the regex
demanding a quote at both ends with at least two characters; tokens come
from a single line, so the no-newline restriction of `.` is vacuous. -/
def stringFullTest (part : List Char) : Bool :=
  match part with
  | [] => false
  | c :: rest =>
      isQuote c &&
        (match rest.getLast? with
         | some d => isQuote d
         | none => false)

/-- Second string-literal test (CodeSlide.tsx line 39), the regex
demanding a leading quote. -/
def stringStartTest (part : List Char) : Bool :=
  match part with
  | [] => false
  | c :: _ => isQuote c

/-- Numeric-literal test `/^\d+$/` (CodeSlide.tsx line 42): nonempty and
all decimal digits. -/
def numericTest (part : List Char) : Bool :=
  !part.isEmpty && part.all Char.isDigit

/-- Comment test (CodeSlide.tsx line 45):
`part.startsWith("#") || part.startsWith("//")`. -/
def commentTest (part : List Char) : Bool :=
  [Char.ofNat 35].isPrefixOf part || [Char.ofNat 47, Char.ofNat 47].isPrefixOf part

/-- Classification of one token in the strict precedence order of the
if-chain in `tokenize` (CodeSlide.tsx lines 35-48): keyword, then string
literal, then numeric literal, then comment, then plain. -/
def classify (kws : List (List Char)) (part : List Char) : TokenClass :=
  if kws.contains (lowerStr part) then TokenClass.keyword
  else if stringFullTest part || stringStartTest part then TokenClass.stringLit
  else if numericTest part then TokenClass.numericLit
  else if commentTest part then TokenClass.comment
  else TokenClass.plain

/-- Embedding of `tokenize` (CodeSlide.tsx lines 19-52): split the line,
then classify every part against the language's keyword set. -/
def tokenize (line : List Char) (language : String) : List (List Char × TokenClass) :=
  let kws := kwsFor language
  (splitParts line).map (fun p => (p, classify kws p))

end CodeSlide

namespace Flowchart

/-- Oracle for a Dagre run that reports nothing: every position query
falls back to the source's defaults. -/
def emptyOracle : DagreOracle :=
  { nodePos := fun _ => none, edgePoints := fun _ _ => [] }

/-- Nodes of the C1 scenario: A in rank 0, B and C in rank 1. -/
def scenarioNodes : List NodeData :=
  [⟨"A", "A", NodeShape.box⟩, ⟨"B", "B", NodeShape.box⟩, ⟨"C", "C", NodeShape.box⟩]

/-- Edges of the C1 scenario. -/
def scenarioEdges : List EdgeData :=
  [⟨"A", "B", none⟩, ⟨"A", "C", none⟩]

/-- Modelled positions the external Dagre layout produces for the C1
scenario graph: with rankdir TB, rank 0 lies above rank 1 (smaller y),
and B lies left of C within rank 1; the exact coordinates only enter the
schedule through this ordering. -/
def scenarioOracle : DagreOracle :=
  { nodePos := fun id =>
      if id = "A" then some ⟨250, 90, 190, 60⟩
      else if id = "B" then some ⟨155, 240, 190, 60⟩
      else if id = "C" then some ⟨415, 240, 190, 60⟩
      else none,
    edgePoints := fun _ _ => [] }

/-- Laid-out C1 scenario graph. -/
def scenarioLayout : List LayoutNode × List LayoutEdge :=
  computeLayout scenarioOracle scenarioNodes scenarioEdges

/-- Node start frames of the C1 scenario at 150 frames, 30 fps. -/
def scenarioStartFrames : List (String × ℤ) :=
  nodeStartFrames 30 150 scenarioLayout.1

/-- Two-node graph used as a concrete witness input. -/
def pairNodes : List NodeData :=
  [⟨"A", "A", NodeShape.box⟩, ⟨"B", "B", NodeShape.box⟩]

/-- Edge list holding one dangling edge (to the absent node C) and one
valid edge, used as a concrete witness input. -/
def pairEdges : List EdgeData :=
  [⟨"A", "C", none⟩, ⟨"A", "B", none⟩]

/-- The laid-out edge `computeLayout emptyOracle pairNodes pairEdges`
produces for the valid edge: both endpoint centers default to the origin. -/
def pairLaidEdge : LayoutEdge :=
  { fromId := "A", toId := "B", label := none,
    points := [⟨0, 0⟩, ⟨0, 0⟩] }

end Flowchart

namespace Flowchart

/-- Growing the initial value of a `foldl max` grows the result. -/
theorem foldl_max_init_le {l : List ℚ} {x y : ℚ} (h : x ≤ y) :
    l.foldl max x ≤ l.foldl max y := by
  induction l generalizing x y with
  | nil => exact h
  | cons a l ih => exact ih (max_le_max h le_rfl)

/-- A running minimum never exceeds the running maximum. -/
theorem foldl_min_le_foldl_max (l : List ℚ) (x : ℚ) :
    l.foldl min x ≤ l.foldl max x := by
  induction l generalizing x with
  | nil => exact le_rfl
  | cons a l ih =>
      exact (ih (min x a)).trans
        (foldl_max_init_le ((min_le_left x a).trans (le_max_left x a)))

/-- Minimum of a nonempty list never exceeds its maximum. -/
theorem minOf_le_maxOf {xs : List ℚ} (h : xs ≠ []) : minOf xs ≤ maxOf xs := by
  cases xs with
  | nil => exact absurd rfl h
  | cons x l => exact foldl_min_le_foldl_max l x

/-- Rounding after adding a nonnegative quantity to an integer never
falls below the integer. -/
theorem le_round_int_add_nonneg (m : ℤ) (c : ℚ) (hc : 0 ≤ c) :
    m ≤ round ((m : ℚ) + c) := by
  rw [round_int_add]
  have h0 : 0 ≤ round c := by
    rw [round_eq]
    exact Int.le_floor.mpr (by push_cast; linarith)
  omega

end Flowchart

/-- C5: for every durationSeconds value, the total frame count equals
max(90, round(durationSeconds * 30)); in particular durationSeconds = 1
yields 90 frames, durationSeconds = 5 yields 150 frames, and
durationSeconds = 0 yields 90 frames (the 90-frame floor applies). -/
theorem totalFrames_formula :
    (∀ d : ℚ, Flowchart.calculateMetadata (some d) = max 90 (round (d * 30))) ∧
    Flowchart.calculateMetadata (some 1) = 90 ∧
    Flowchart.calculateMetadata (some 5) = 150 ∧
    Flowchart.calculateMetadata (some 0) = 90 := by
  refine ⟨fun d => rfl, ?_, ?_, ?_⟩
  · unfold Flowchart.calculateMetadata
    rw [round_eq]
    norm_num
  · unfold Flowchart.calculateMetadata
    rw [round_eq]
    norm_num
  · unfold Flowchart.calculateMetadata
    rw [round_eq]
    norm_num

/-- C10: for every rendered edge label, a label of more than 10
characters is displayed as exactly its first 9 characters followed by a
single ellipsis character (10 characters in all); otherwise the label is
displayed in full. -/
theorem edgeLabel_truncation (label : List Char) :
    (10 < label.length →
      Flowchart.displayEdgeLabel label = label.take 9 ++ [Flowchart.ellipsisChar] ∧
      (Flowchart.displayEdgeLabel label).length = 10) ∧
    (label.length ≤ 10 → Flowchart.displayEdgeLabel label = label) := by
  constructor
  · intro h
    constructor
    · unfold Flowchart.displayEdgeLabel
      rw [if_pos h]
    · unfold Flowchart.displayEdgeLabel
      rw [if_pos h]
      simp only [List.length_append, List.length_take, List.length_singleton]
      omega
  · intro h
    unfold Flowchart.displayEdgeLabel
    rw [if_neg (by omega)]

/-- Witness for C10 at the concrete 11-character label abcdefghijk. -/
theorem edgeLabel_truncation_witness :
    10 < ("abcdefghijk".toList).length ∧
    (Flowchart.displayEdgeLabel ("abcdefghijk".toList) =
      ("abcdefghijk".toList).take 9 ++ [Flowchart.ellipsisChar] ∧
    (Flowchart.displayEdgeLabel ("abcdefghijk".toList)).length = 10) :=
  ⟨by decide, (edgeLabel_truncation ("abcdefghijk".toList)).1 (by decide)⟩

/-- C4: for every node list and edge list, any edge whose endpoints are
not both among the node ids never appears (by its endpoint pair) in the
laid-out edge list, and every laid-out edge has both endpoints in the
node set; the exclusion is exception-free, the layout computation being a
total function. -/
theorem dangling_edges_dropped (g : Flowchart.DagreOracle)
    (nodes : List Flowchart.NodeData) (edges : List Flowchart.EdgeData)
    (e : Flowchart.EdgeData) (hinv : Flowchart.validEdge nodes e = false)
    (le : Flowchart.LayoutEdge)
    (hle : le ∈ (Flowchart.computeLayout g nodes edges).2) :
    ¬(le.fromId = e.fromId ∧ le.toId = e.toId) ∧
    Flowchart.validEdge nodes (Flowchart.toEdgeData le) = true := by
  simp only [Flowchart.computeLayout, List.mem_map, List.mem_filter] at hle
  obtain ⟨e0, ⟨he0, hv0⟩, rfl⟩ := hle
  have hval : Flowchart.validEdge nodes
      (Flowchart.toEdgeData
        { fromId := e0.fromId, toId := e0.toId, label := e0.label,
          points := if (g.edgePoints e0.fromId e0.toId).length < 2 then
              [{ x := ((g.nodePos e0.fromId).map (fun p => p.x)).getD 0,
                 y := ((g.nodePos e0.fromId).map (fun p => p.y)).getD 0 },
               { x := ((g.nodePos e0.toId).map (fun p => p.x)).getD 0,
                 y := ((g.nodePos e0.toId).map (fun p => p.y)).getD 0 }]
            else g.edgePoints e0.fromId e0.toId }) = true := hv0
  refine ⟨?_, hval⟩
  rintro ⟨h1, h2⟩
  apply absurd hinv
  simp only [Flowchart.validEdge] at hv0 ⊢
  simp only [Flowchart.toEdgeData] at hval
  have hfrom : e.fromId = e0.fromId := by
    simpa using h1.symm
  have hto : e.toId = e0.toId := by
    simpa using h2.symm
  rw [hfrom, hto, hv0]
  simp

/-- Witness for C4: in the two-node graph with one dangling edge A→C and
one valid edge A→B, the laid-out edge differs from the dangling edge and
is valid. -/
theorem dangling_edges_dropped_witness :
    Flowchart.validEdge Flowchart.pairNodes ⟨"A", "C", none⟩ = false ∧
    Flowchart.pairLaidEdge ∈
      (Flowchart.computeLayout Flowchart.emptyOracle Flowchart.pairNodes
        Flowchart.pairEdges).2 ∧
    (¬(Flowchart.pairLaidEdge.fromId = ("A" : String) ∧
        Flowchart.pairLaidEdge.toId = ("C" : String)) ∧
      Flowchart.validEdge Flowchart.pairNodes
        (Flowchart.toEdgeData Flowchart.pairLaidEdge) = true) :=
  ⟨by decide, by decide,
    dangling_edges_dropped Flowchart.emptyOracle Flowchart.pairNodes Flowchart.pairEdges
      ⟨"A", "C", none⟩ (by decide) Flowchart.pairLaidEdge (by decide)⟩

/-- C9: normalization is idempotent; for every graph whose edges all
have both endpoints among the node ids, the laid-out node list projects
back to exactly the input node list and the laid-out edge list projects
back to exactly the input edge list (nothing is dropped, reordered, or
deduplicated). -/
theorem normalization_idempotent (g : Flowchart.DagreOracle)
    (nodes : List Flowchart.NodeData) (edges : List Flowchart.EdgeData)
    (hvalid : ∀ e ∈ edges, Flowchart.validEdge nodes e = true) :
    (Flowchart.computeLayout g nodes edges).1.map Flowchart.toNodeData = nodes ∧
    (Flowchart.computeLayout g nodes edges).2.map Flowchart.toEdgeData = edges := by
  constructor
  · simp only [Flowchart.computeLayout, List.map_map]
    have h : ∀ n ∈ nodes,
        (Flowchart.toNodeData ∘ (fun n : Flowchart.NodeData =>
          match g.nodePos n.id with
          | some pos =>
              { id := n.id, label := n.label, shape := n.shape,
                x := pos.x, y := pos.y, w := pos.width, h := pos.height }
          | none =>
              { id := n.id, label := n.label, shape := n.shape,
                x := 0, y := 0, w := Flowchart.NODE_W,
                h := Flowchart.NODE_H })) n = n := by
      intro n _
      cases hn : g.nodePos n.id <;> simp [Function.comp, hn, Flowchart.toNodeData]
    rw [List.map_congr_left h, List.map_id']
  · simp only [Flowchart.computeLayout, List.map_map]
    have hf : edges.filter (fun e =>
        (nodes.map (fun n => n.id)).contains e.fromId &&
          (nodes.map (fun n => n.id)).contains e.toId) = edges :=
      List.filter_eq_self.mpr (fun e he => hvalid e he)
    rw [hf]
    have h : ∀ e ∈ edges,
        (Flowchart.toEdgeData ∘ (fun e : Flowchart.EdgeData =>
          ({ fromId := e.fromId, toId := e.toId, label := e.label,
             points := if (g.edgePoints e.fromId e.toId).length < 2 then
                 [{ x := ((g.nodePos e.fromId).map (fun p => p.x)).getD 0,
                    y := ((g.nodePos e.fromId).map (fun p => p.y)).getD 0 },
                  { x := ((g.nodePos e.toId).map (fun p => p.x)).getD 0,
                    y := ((g.nodePos e.toId).map (fun p => p.y)).getD 0 }]
               else g.edgePoints e.fromId e.toId } : Flowchart.LayoutEdge))) e = e := by
      intro e _
      simp [Function.comp, Flowchart.toEdgeData]
    rw [List.map_congr_left h, List.map_id']

/-- Witness for C9: a concrete all-valid two-node graph is returned
unchanged by the layout normalization. -/
theorem normalization_idempotent_witness :
    (∀ e ∈ [(⟨"A", "B", none⟩ : Flowchart.EdgeData)],
      Flowchart.validEdge Flowchart.pairNodes e = true) ∧
    ((Flowchart.computeLayout Flowchart.emptyOracle Flowchart.pairNodes
        [⟨"A", "B", none⟩]).1.map Flowchart.toNodeData = Flowchart.pairNodes ∧
     (Flowchart.computeLayout Flowchart.emptyOracle Flowchart.pairNodes
        [⟨"A", "B", none⟩]).2.map Flowchart.toEdgeData = [⟨"A", "B", none⟩]) :=
  ⟨by decide,
    normalization_idempotent Flowchart.emptyOracle Flowchart.pairNodes
      [⟨"A", "B", none⟩] (by decide)⟩

/-- Counterexample for C3: with the empty node set (and no title) on the
fixed 1920x1080 canvas, the fit scale is 1.6 — the default minimum
bounding box makes the fit hit the 1.6 upper bound — and 1.6 is not 1. -/
theorem fitScale_empty_counterexample :
    Flowchart.fitScale [] 1920 1080 none = 1.6 ∧ (1.6 : ℚ) ≠ 1 := by
  constructor
  · unfold Flowchart.fitScale Flowchart.titleHOf Flowchart.graphWOf
      Flowchart.graphHOf Flowchart.viewBoxOf
    norm_num [Flowchart.NODE_W, Flowchart.NODE_H, Flowchart.PAD, min_def]
  · norm_num

/-- C3 (amended): the fit denominators are strictly positive for every
node set, so the scale computation never divides by zero and is a
well-defined (finite) rational; and for the empty node set on the
1920x1080 canvas the scale equals 1.6 (the cap), whether or not a title
is present. -/
theorem fitScale_welldefined :
    (∀ lnodes : List Flowchart.LayoutNode,
      0 < Flowchart.graphWOf lnodes ∧ 0 < Flowchart.graphHOf lnodes) ∧
    (∀ title : Option String, Flowchart.fitScale [] 1920 1080 title = 1.6) := by
  constructor
  · intro lnodes
    cases lnodes with
    | nil =>
        constructor <;>
          · simp only [Flowchart.graphWOf, Flowchart.graphHOf, Flowchart.viewBoxOf]
            norm_num [Flowchart.NODE_W, Flowchart.NODE_H, Flowchart.PAD]
    | cons n ns =>
        have hx : Flowchart.minOf ((n :: ns).flatMap
              (fun n => [n.x - n.w / 2, n.x + n.w / 2])) ≤
            Flowchart.maxOf ((n :: ns).flatMap
              (fun n => [n.x - n.w / 2, n.x + n.w / 2])) :=
          Flowchart.minOf_le_maxOf (by simp [List.flatMap])
        have hy : Flowchart.minOf ((n :: ns).flatMap
              (fun n => [n.y - n.h / 2, n.y + n.h / 2])) ≤
            Flowchart.maxOf ((n :: ns).flatMap
              (fun n => [n.y - n.h / 2, n.y + n.h / 2])) :=
          Flowchart.minOf_le_maxOf (by simp [List.flatMap])
        constructor <;>
          · simp only [Flowchart.graphWOf, Flowchart.graphHOf, Flowchart.viewBoxOf]
            simp only [List.length_cons, Nat.zero_lt_succ, if_pos]
            rw [Flowchart.PAD]
            linarith [hx, hy]
  · intro title
    have ht : Flowchart.titleHOf title = 0 ∨ Flowchart.titleHOf title = 90 := by
      unfold Flowchart.titleHOf
      cases title with
      | none => exact Or.inl rfl
      | some t => by_cases h : t = "" <;> simp [h]
    unfold Flowchart.fitScale Flowchart.graphWOf Flowchart.graphHOf Flowchart.viewBoxOf
    rcases ht with h | h <;>
      rw [h] <;>
      norm_num [Flowchart.NODE_W, Flowchart.NODE_H, Flowchart.PAD, min_def]

/-- Truncating a word keeps it within a positive budget: an over-long
word is cut to budget-minus-one characters plus the ellipsis. -/
theorem truncWord_length_le {maxChars : ℕ} (h1 : 1 ≤ maxChars) (w : List Char) :
    (Flowchart.truncWord w maxChars).length ≤ maxChars := by
  unfold Flowchart.truncWord Flowchart.jsSliceTake
  split
  case isTrue h =>
    rw [if_neg (by omega : ¬maxChars = 0)]
    simp only [List.length_append, List.length_take, List.length_singleton]
    omega
  case isFalse h => omega

/-- Invariant of the word-accumulation loop: with a positive budget, if
the current line and all accumulated lines are within budget, every line
the loop returns is within budget. -/
theorem wrapLoop_budget {maxChars : ℕ} (h1 : 1 ≤ maxChars) :
    ∀ (ws : List (List Char)) (cur : List Char) (lines : List (List Char)),
      cur.length ≤ maxChars → (∀ l ∈ lines, l.length ≤ maxChars) →
      ∀ l ∈ Flowchart.wrapLoop maxChars ws cur lines, l.length ≤ maxChars := by
  intro ws
  induction ws with
  | nil =>
      intro cur lines hcur hlines l hl
      simp only [Flowchart.wrapLoop] at hl
      split at hl
      · exact hlines l hl
      · rcases List.mem_append.mp hl with h | h
        · exact hlines l h
        · rw [List.mem_singleton.mp h]
          exact hcur
  | cons w ws ih =>
      intro cur lines hcur hlines l hl
      simp only [Flowchart.wrapLoop] at hl
      split at hl
      · split at hl
        · exact ih _ _ (truncWord_length_le h1 w) hlines l hl
        · exact ih _ _ (by omega) hlines l hl
      · split at hl
        · refine ih _ _ (truncWord_length_le h1 w) ?_ l hl
          intro l2 hl2
          rcases List.mem_append.mp hl2 with h | h
          · exact hlines l2 h
          · rw [List.mem_singleton.mp h]
            exact hcur
        · exact ih _ _ (by omega) hlines l hl

/-- Counterexample for C6: at character budget 0, the single-character
input is truncated by the end-relative slice to one character plus the
ellipsis, so the returned line has 2 characters and exceeds the budget. -/
theorem wrapLabel_budget_zero_counterexample :
    Flowchart.wrapLabel ("ab".toList) 0 = [['a', Flowchart.ellipsisChar]] ∧
    ¬(∀ l ∈ Flowchart.wrapLabel ("ab".toList) 0, l.length ≤ 0) := by
  constructor
  · decide
  · decide

/-- C6 (amended): for every label and every character budget of at least
one character, wrapLabel returns at most 2 lines and no returned line
exceeds the budget (over-long words having been truncated with a single
trailing ellipsis within the budget). -/
theorem wrapLabel_budget (label : List Char) (maxChars : ℕ) (h1 : 1 ≤ maxChars) :
    (Flowchart.wrapLabel label maxChars).length ≤ 2 ∧
    ∀ l ∈ Flowchart.wrapLabel label maxChars, l.length ≤ maxChars := by
  constructor
  · exact List.length_take_le 2 _
  · intro l hl
    have hl2 : l ∈ Flowchart.wrapLines label maxChars := List.take_subset 2 _ hl
    unfold Flowchart.wrapLines at hl2
    split at hl2
    case isTrue h =>
      rw [List.mem_singleton.mp hl2]
      exact h
    case isFalse h =>
      exact wrapLoop_budget h1 _ [] [] (by simp) (by simp) l hl2

/-- Witness for C6 at the node-label budget 22 used by the source. -/
theorem wrapLabel_budget_witness :
    1 ≤ 22 ∧
    ((Flowchart.wrapLabel ("Deterministic frame scheduling".toList) 22).length ≤ 2 ∧
      ∀ l ∈ Flowchart.wrapLabel ("Deterministic frame scheduling".toList) 22,
        l.length ≤ 22) :=
  ⟨by decide, wrapLabel_budget ("Deterministic frame scheduling".toList) 22 (by decide)⟩

/-- Counterexample for C7: a 19-character label at budget 5 needs four
lines, so its content does not fit on two; yet the second (last) returned
line is the plain word bbbb, with no ellipsis appended. -/
theorem wrapLabel_overflow_counterexample :
    2 < (Flowchart.wrapLines ("aaaa bbbb cccc dddd".toList) 5).length ∧
    Flowchart.wrapLabel ("aaaa bbbb cccc dddd".toList) 5 =
      ["aaaa".toList, "bbbb".toList] ∧
    ("bbbb".toList).getLast? ≠ some Flowchart.ellipsisChar := by
  refine ⟨by decide, by decide, by decide⟩

/-- C7 (amended): a label longer than the budget is wrapped onto at most
two lines; when the wrapped content needs more than two lines, the lines
beyond the second are dropped and the first two lines are returned
unchanged — in particular no ellipsis is appended to the second line. -/
theorem wrapLabel_two_lines_drop (label : List Char) (maxChars : ℕ)
    (_hlong : maxChars < label.length)
    (hover : 2 < (Flowchart.wrapLines label maxChars).length) :
    (Flowchart.wrapLabel label maxChars).length = 2 ∧
    Flowchart.wrapLabel label maxChars =
      [(Flowchart.wrapLines label maxChars).getD 0 [],
       (Flowchart.wrapLines label maxChars).getD 1 []] := by
  obtain ⟨a, b, rest, hL⟩ :
      ∃ a b rest, Flowchart.wrapLines label maxChars = a :: b :: rest := by
    match h : Flowchart.wrapLines label maxChars with
    | [] => rw [h] at hover; simp at hover
    | [a] => rw [h] at hover; simp at hover
    | a :: b :: rest => exact ⟨a, b, rest, rfl⟩
  unfold Flowchart.wrapLabel
  rw [hL]
  simp

/-- Witness for C7 at the concrete over-long label. -/
theorem wrapLabel_two_lines_drop_witness :
    (5 < ("aaaa bbbb cccc dddd".toList).length ∧
      2 < (Flowchart.wrapLines ("aaaa bbbb cccc dddd".toList) 5).length) ∧
    ((Flowchart.wrapLabel ("aaaa bbbb cccc dddd".toList) 5).length = 2 ∧
      Flowchart.wrapLabel ("aaaa bbbb cccc dddd".toList) 5 =
        [(Flowchart.wrapLines ("aaaa bbbb cccc dddd".toList) 5).getD 0 [],
         (Flowchart.wrapLines ("aaaa bbbb cccc dddd".toList) 5).getD 1 []]) :=
  ⟨⟨by decide, by decide⟩,
    wrapLabel_two_lines_drop ("aaaa bbbb cccc dddd".toList) 5 (by decide) (by decide)⟩

/-- Classification against the empty keyword set never yields the
keyword class: the first branch of the if-chain cannot fire. -/
theorem classify_empty_ne_keyword (part : List Char) :
    CodeSlide.classify [] part ≠ CodeSlide.TokenClass.keyword := by
  unfold CodeSlide.classify
  have h : (([] : List (List Char)).contains (CodeSlide.lowerStr part)) = false := rfl
  rw [h]
  simp only [Bool.false_eq_true, if_false]
  split
  · exact fun hc => nomatch hc
  · split
    · exact fun hc => nomatch hc
    · split
      · exact fun hc => nomatch hc
      · exact fun hc => nomatch hc

/-- Counterexample for C8: klingon is not a key of the keyword table, yet
the token 42 of the line 42 is classified as a numeric literal, not as
plain text — the string/numeric/comment rules are language-independent. -/
theorem unknown_language_counterexample :
    (CodeSlide.keywordTable.lookup "klingon" = none) ∧
    CodeSlide.tokenize ("42".toList) "klingon" =
      [(("42".toList), CodeSlide.TokenClass.numericLit)] ∧
    CodeSlide.TokenClass.numericLit ≠ CodeSlide.TokenClass.plain := by
  refine ⟨by decide, by decide, by decide⟩

/-- C8 (amended): a language that is not a key of the keyword table uses
the empty keyword set, so no token of any line receives the keyword
classification; the string-literal, numeric-literal and comment rules
still apply, being independent of the language. -/
theorem unknown_language_no_keywords (language : String)
    (h : CodeSlide.keywordTable.lookup language = none)
    (line : List Char) (p : List Char × CodeSlide.TokenClass)
    (hp : p ∈ CodeSlide.tokenize line language) :
    CodeSlide.kwsFor language = [] ∧ p.2 ≠ CodeSlide.TokenClass.keyword := by
  have hk : CodeSlide.kwsFor language = [] := by
    unfold CodeSlide.kwsFor
    rw [h]
    rfl
  refine ⟨hk, ?_⟩
  unfold CodeSlide.tokenize at hp
  rw [List.mem_map] at hp
  obtain ⟨part, hpart, rfl⟩ := hp
  show CodeSlide.classify (CodeSlide.kwsFor language) part ≠ CodeSlide.TokenClass.keyword
  rw [hk]
  exact classify_empty_ne_keyword part

/-- Witness for C8 at the unknown language klingon and the line if x. -/
theorem unknown_language_no_keywords_witness :
    (CodeSlide.keywordTable.lookup "klingon" = none ∧
      (("if".toList, CodeSlide.TokenClass.plain) ∈
        CodeSlide.tokenize ("if x".toList) "klingon")) ∧
    (CodeSlide.kwsFor "klingon" = [] ∧
      (("if".toList, CodeSlide.TokenClass.plain)).2 ≠ CodeSlide.TokenClass.keyword) :=
  ⟨⟨by decide, by decide⟩,
    unknown_language_no_keywords "klingon" (by decide) ("if x".toList)
      ("if".toList, CodeSlide.TokenClass.plain) (by decide)⟩

/-- Evaluation of the C1 scenario node start frames: reveal order A, B,
C with interval 27.5, giving rounded start frames 6, 34 and 61. -/
theorem scenario_startFrames_eval :
    Flowchart.nodeStartFrames 30 150 Flowchart.scenarioLayout.1 =
      [("A", 6), ("B", 34), ("C", 61)] := by
  have h1 : Flowchart.orderedIds Flowchart.scenarioLayout.1 = ["A", "B", "C"] := by decide
  unfold Flowchart.nodeStartFrames
  rw [h1]
  have h2 : Flowchart.nodeInterval 30 150 (["A", "B", "C"].length) = 55/2 := by
    unfold Flowchart.nodeInterval
    rw [max_def]
    norm_num
  simp only [h2, List.enum, List.enumFrom, List.map]
  norm_num [round_eq]

/-- Evaluation of the C1 scenario edge start frames: both edges start at
round(max(start(A), start(target)) + 5.4), giving 39 and 66. -/
theorem scenario_edgeStarts_eval :
    Flowchart.edgeStartFrames 30 150 Flowchart.scenarioLayout.1 Flowchart.scenarioLayout.2 =
      [39, 66] := by
  have hE : Flowchart.scenarioLayout.2 =
      [⟨"A", "B", none, [⟨250, 90⟩, ⟨155, 240⟩]⟩,
       ⟨"A", "C", none, [⟨250, 90⟩, ⟨415, 240⟩]⟩] := by decide
  unfold Flowchart.edgeStartFrames
  rw [hE]
  simp only [scenario_startFrames_eval, List.map]
  have hA : Flowchart.recordGetD [("A", (6:ℤ)), ("B", 34), ("C", 61)] "A" 0 = 6 := by decide
  have hB : Flowchart.recordGetD [("A", (6:ℤ)), ("B", 34), ("C", 61)] "B" 0 = 34 := by decide
  have hC : Flowchart.recordGetD [("A", (6:ℤ)), ("B", 34), ("C", 61)] "C" 0 = 61 := by decide
  rw [hA, hB, hC]
  norm_num [max_def, round_eq]

/-- Counterexample for C1: in the stated scenario the code computes
startFrame(C) = round(2 * 27.5 + 6) = 61, and 61 is not the claimed 62. -/
theorem scenario_startC_counterexample :
    Flowchart.recordGetD Flowchart.scenarioStartFrames "C" 0 = 61 ∧ (61 : ℤ) ≠ 62 := by
  constructor
  · unfold Flowchart.scenarioStartFrames
    rw [scenario_startFrames_eval]
    decide
  · decide

/-- C1 (amended): in the scenario graph (A in rank 0; B and C in rank 1,
150 frames at 30 fps) the reveal order is A, B, C; the per-node interval
is max(0.18*30, 0.55*150/3) = 27.5 frames; the start frames computed by
startFrame(node_i) = round(i * interval + 6) are startFrame(A) = 6,
startFrame(B) = 34 and startFrame(C) = 61; and both edges start at
round(max(startFrame(A), startFrame(target)) + 0.18*30), namely frames
39 and 66, which here coincide with
max(startFrame(A), startFrame(target)) + round(0.18*30). -/
theorem scenario_schedule :
    Flowchart.orderedIds Flowchart.scenarioLayout.1 = ["A", "B", "C"] ∧
    Flowchart.nodeInterval 30 150 3 = 27.5 ∧
    Flowchart.recordGetD Flowchart.scenarioStartFrames "A" 0 = 6 ∧
    Flowchart.recordGetD Flowchart.scenarioStartFrames "B" 0 = 34 ∧
    Flowchart.recordGetD Flowchart.scenarioStartFrames "C" 0 = 61 ∧
    Flowchart.edgeStartFrames 30 150 Flowchart.scenarioLayout.1
      Flowchart.scenarioLayout.2 = [39, 66] ∧
    (39 : ℤ) = max 6 34 + round ((0.18 : ℚ) * 30) ∧
    (66 : ℤ) = max 6 61 + round ((0.18 : ℚ) * 30) := by
  refine ⟨by decide, ?_, ?_, ?_, ?_, scenario_edgeStarts_eval, ?_, ?_⟩
  · unfold Flowchart.nodeInterval
    rw [max_def]
    norm_num
  · unfold Flowchart.scenarioStartFrames
    rw [scenario_startFrames_eval]
    decide
  · unfold Flowchart.scenarioStartFrames
    rw [scenario_startFrames_eval]
    decide
  · unfold Flowchart.scenarioStartFrames
    rw [scenario_startFrames_eval]
    decide
  · rw [round_eq]
    norm_num [max_def]
  · rw [round_eq]
    norm_num [max_def]

/-- C2: every laid-out edge has both endpoints in the node set, and its
computed start frame equals round(max(startFrame(from), startFrame(to)) +
fps * 0.18) — a fixed delay after both endpoints have started — and is
therefore at least the maximum of the two endpoint start frames. -/
theorem edge_starts_after_endpoints (fps totalFrames : ℕ) (g : Flowchart.DagreOracle)
    (nodes : List Flowchart.NodeData) (edges : List Flowchart.EdgeData)
    (e : Flowchart.LayoutEdge) (i : ℕ)
    (hi : ((Flowchart.computeLayout g nodes edges).2)[i]? = some e) :
    Flowchart.validEdge nodes (Flowchart.toEdgeData e) = true ∧
    (Flowchart.edgeStartFrames fps totalFrames (Flowchart.computeLayout g nodes edges).1
        (Flowchart.computeLayout g nodes edges).2).getD i 0 =
      round (((max
          (Flowchart.recordGetD
            (Flowchart.nodeStartFrames fps totalFrames
              (Flowchart.computeLayout g nodes edges).1) e.fromId 0)
          (Flowchart.recordGetD
            (Flowchart.nodeStartFrames fps totalFrames
              (Flowchart.computeLayout g nodes edges).1) e.toId 0) : ℤ) : ℚ) +
        (fps : ℚ) * 0.18) ∧
    max
        (Flowchart.recordGetD
          (Flowchart.nodeStartFrames fps totalFrames
            (Flowchart.computeLayout g nodes edges).1) e.fromId 0)
        (Flowchart.recordGetD
          (Flowchart.nodeStartFrames fps totalFrames
            (Flowchart.computeLayout g nodes edges).1) e.toId 0) ≤
      (Flowchart.edgeStartFrames fps totalFrames (Flowchart.computeLayout g nodes edges).1
        (Flowchart.computeLayout g nodes edges).2).getD i 0 := by
  have hmem : e ∈ (Flowchart.computeLayout g nodes edges).2 :=
    List.mem_iff_getElem?.mpr ⟨i, hi⟩
  have hval : Flowchart.validEdge nodes (Flowchart.toEdgeData e) = true := by
    simp only [Flowchart.computeLayout, List.mem_map, List.mem_filter] at hmem
    obtain ⟨e0, ⟨he0, hv0⟩, rfl⟩ := hmem
    exact hv0
  have hgetD : (Flowchart.edgeStartFrames fps totalFrames
        (Flowchart.computeLayout g nodes edges).1
        (Flowchart.computeLayout g nodes edges).2).getD i 0 =
      round (((max
          (Flowchart.recordGetD
            (Flowchart.nodeStartFrames fps totalFrames
              (Flowchart.computeLayout g nodes edges).1) e.fromId 0)
          (Flowchart.recordGetD
            (Flowchart.nodeStartFrames fps totalFrames
              (Flowchart.computeLayout g nodes edges).1) e.toId 0) : ℤ) : ℚ) +
        (fps : ℚ) * 0.18) := by
    unfold Flowchart.edgeStartFrames
    rw [List.getD_eq_getElem?_getD, List.getElem?_map, hi]
    rfl
  refine ⟨hval, hgetD, ?_⟩
  rw [hgetD]
  exact Flowchart.le_round_int_add_nonneg _ _
    (mul_nonneg (Nat.cast_nonneg fps) (by norm_num))

/-- Witness for C2: the valid edge A→B of the two-node pair graph laid
out with the empty oracle, at index 0 of the laid-out edge list. -/
theorem edge_starts_after_endpoints_witness :
    ((Flowchart.computeLayout Flowchart.emptyOracle Flowchart.pairNodes
        [⟨"A", "B", none⟩]).2)[0]? = some Flowchart.pairLaidEdge ∧
    (Flowchart.validEdge Flowchart.pairNodes
        (Flowchart.toEdgeData Flowchart.pairLaidEdge) = true ∧
     (Flowchart.edgeStartFrames 30 150
        (Flowchart.computeLayout Flowchart.emptyOracle Flowchart.pairNodes
          [⟨"A", "B", none⟩]).1
        (Flowchart.computeLayout Flowchart.emptyOracle Flowchart.pairNodes
          [⟨"A", "B", none⟩]).2).getD 0 0 =
      round (((max
          (Flowchart.recordGetD
            (Flowchart.nodeStartFrames 30 150
              (Flowchart.computeLayout Flowchart.emptyOracle Flowchart.pairNodes
                [⟨"A", "B", none⟩]).1) Flowchart.pairLaidEdge.fromId 0)
          (Flowchart.recordGetD
            (Flowchart.nodeStartFrames 30 150
              (Flowchart.computeLayout Flowchart.emptyOracle Flowchart.pairNodes
                [⟨"A", "B", none⟩]).1) Flowchart.pairLaidEdge.toId 0) : ℤ) : ℚ) +
        (30 : ℚ) * 0.18) ∧
     max
        (Flowchart.recordGetD
          (Flowchart.nodeStartFrames 30 150
            (Flowchart.computeLayout Flowchart.emptyOracle Flowchart.pairNodes
              [⟨"A", "B", none⟩]).1) Flowchart.pairLaidEdge.fromId 0)
        (Flowchart.recordGetD
          (Flowchart.nodeStartFrames 30 150
            (Flowchart.computeLayout Flowchart.emptyOracle Flowchart.pairNodes
              [⟨"A", "B", none⟩]).1) Flowchart.pairLaidEdge.toId 0) ≤
      (Flowchart.edgeStartFrames 30 150
        (Flowchart.computeLayout Flowchart.emptyOracle Flowchart.pairNodes
          [⟨"A", "B", none⟩]).1
        (Flowchart.computeLayout Flowchart.emptyOracle Flowchart.pairNodes
          [⟨"A", "B", none⟩]).2).getD 0 0) :=
  ⟨by decide,
    edge_starts_after_endpoints 30 150 Flowchart.emptyOracle Flowchart.pairNodes
      [⟨"A", "B", none⟩] Flowchart.pairLaidEdge 0 (by decide)⟩
